import Mathlib

/-!
Verification development for the pdf-creator repository (src/main.py).

The Python program is shallowly embedded as pure Lean functions.  Filenames
and paths are Lean strings; machine-level effects are made explicit:

* the directory listing of a folder is passed in as a list of entry names;
* the WeasyPrint rendering of an HTML file is an abstract function
  render : String -> Option (List Nat), where some pgs is a successful
  render producing the given pages and none is a raised exception;
* stdin reads are Option String values, none modelling EOF;
* the JSON history file is an explicit inductive value.

Python string operations are modelled for ASCII data (str.isdigit,
str.lower, str.strip), which covers the filenames and paths the claims
are about.
-/

/-- ASCII digit test; model of the character class [0-9] used by
re.split in natural_sort_key, and of str.isdigit on ASCII data. -/
def isAsciiDigit (c : Char) : Bool := '0' ≤ c && c ≤ '9'

/-- Numeric value of a run of ASCII digits, as computed by int(text). -/
def digitsToNat (cs : List Char) : Nat :=
  cs.foldl (fun n c => 10 * n + (c.toNat - 48)) 0

/-- Helper for splitRuns: scans the remaining characters, carrying the class
of the chunk being built (inDigit) and the chunk accumulated so far in
reverse order.  Mirrors the output shape of re.split with a capturing
group of [0-9]+: the result alternates non-digit, digit, non-digit, ...,
beginning and ending with a (possibly empty) non-digit chunk. -/
def splitRunsAux : Bool → List Char → List Char → List (List Char)
  | inDigit, acc, [] =>
    if inDigit then [acc.reverse, []] else [acc.reverse]
  | inDigit, acc, c :: rest =>
    if isAsciiDigit c = inDigit then splitRunsAux inDigit (c :: acc) rest
    else acc.reverse :: splitRunsAux (!inDigit) [c] rest

/-- Model of re.split with pattern ([0-9]+): splits a string into maximal
digit runs and non-digit runs, keeping the (possibly empty) non-digit
boundary chunks exactly as re.split does. -/
def splitRuns (s : List Char) : List (List Char) := splitRunsAux false [] s

/-- A chunk of a natural sort key: either the numeric value of a digit run
(int(text)) or a lowercased non-digit run (text.lower()). -/
abbrev Chunk := Sum Nat (List Char)

/-- Model of natural_sort_key from src/main.py: split the string into
digit and non-digit runs; digit runs become their numeric value, other
runs are lowercased. -/
def natural_sort_key (s : String) : List Chunk :=
  (splitRuns s.data).map fun run =>
    if run ≠ [] && run.all isAsciiDigit then Sum.inl (digitsToNat run)
    else Sum.inr (run.map Char.toLower)

/-- Strict lexicographic comparison of character lists, as Python compares
strings (by code point, first difference decides, prefix is smaller). -/
def charsLT : List Char → List Char → Bool
  | [], [] => false
  | [], _ :: _ => true
  | _ :: _, [] => false
  | a :: as, b :: bs => decide (a < b) || (decide (a = b) && charsLT as bs)

/-- Strict comparison of key chunks, as Python compares the elements of
two key lists.  Python only ever compares an int with an int and a str
with a str here, because every key alternates str, int, str, ...; the
cross-constructor cases are given a fixed arbitrary answer. -/
def chunkLT : Chunk → Chunk → Bool
  | Sum.inl m, Sum.inl n => decide (m < n)
  | Sum.inl _, Sum.inr _ => true
  | Sum.inr _, Sum.inl _ => false
  | Sum.inr s, Sum.inr t => charsLT s t

/-- Lexicographic order on key lists, as Python compares lists: the first
differing element decides, and a proper prefix is smaller. -/
def keyLE : List Chunk → List Chunk → Bool
  | [], _ => true
  | _ :: _, [] => false
  | a :: as, b :: bs => chunkLT a b || (decide (a = b) && keyLE as bs)

/-- The comparison used by sorted(..., key=natural_sort_key): compare the
natural sort keys of the two strings. -/
def natLE (a b : String) : Bool := keyLE (natural_sort_key a) (natural_sort_key b)

/-- The natural sort order on strings as a relation, for use with the
sorting function and the sortedness statements. -/
def NaturalBefore (a b : String) : Prop := natLE a b = true

instance : DecidableRel NaturalBefore := fun a b => (natLE a b).decEq true

theorem charsLT_trans :
    ∀ (a b c : List Char), charsLT a b = true → charsLT b c = true →
      charsLT a c = true := by
  intro a
  induction a with
  | nil =>
    intro b c hab hbc
    cases b with
    | nil => simp [charsLT] at hab
    | cons y ys =>
      cases c with
      | nil => simp [charsLT] at hbc
      | cons z zs => simp [charsLT]
  | cons x xs ih =>
    intro b c hab hbc
    cases b with
    | nil => simp [charsLT] at hab
    | cons y ys =>
      cases c with
      | nil => simp [charsLT] at hbc
      | cons z zs =>
        simp only [charsLT, Bool.or_eq_true, Bool.and_eq_true,
          decide_eq_true_eq] at hab hbc ⊢
        rcases hab with h1 | ⟨hxy, h1⟩
        · rcases hbc with h2 | ⟨hyz, h2⟩
          · exact Or.inl (lt_trans h1 h2)
          · exact Or.inl (hyz ▸ h1)
        · rcases hbc with h2 | ⟨hyz, h2⟩
          · exact Or.inl (hxy ▸ h2)
          · exact Or.inr ⟨hxy.trans hyz, ih ys zs h1 h2⟩

theorem charsLT_connex :
    ∀ (a b : List Char), charsLT a b = false → a ≠ b → charsLT b a = true := by
  intro a
  induction a with
  | nil =>
    intro b hab hne
    cases b with
    | nil => exact absurd rfl hne
    | cons y ys => simp [charsLT] at hab
  | cons x xs ih =>
    intro b hab hne
    cases b with
    | nil => simp [charsLT]
    | cons y ys =>
      simp only [charsLT, Bool.or_eq_false_iff, Bool.and_eq_false_iff,
        decide_eq_false_iff_not, Bool.or_eq_true, Bool.and_eq_true,
        decide_eq_true_eq] at hab ⊢
      obtain ⟨hnlt, hrest⟩ := hab
      by_cases hxy : x = y
      · subst hxy
        have hxs : xs ≠ ys := fun h => hne (h ▸ rfl)
        rcases hrest with h | h
        · exact absurd rfl h
        · exact Or.inr ⟨rfl, ih ys h hxs⟩
      · rcases lt_trichotomy x y with h | h | h
        · exact absurd h hnlt
        · exact absurd h hxy
        · exact Or.inl h

theorem chunkLT_trans (a b c : Chunk) (hab : chunkLT a b = true)
    (hbc : chunkLT b c = true) : chunkLT a c = true := by
  cases a with
  | inl m =>
    cases b with
    | inl n =>
      cases c with
      | inl k =>
        simp only [chunkLT, decide_eq_true_eq] at hab hbc ⊢
        exact lt_trans hab hbc
      | inr t => simp [chunkLT]
    | inr t =>
      cases c with
      | inl k => simp [chunkLT] at hbc
      | inr u => simp [chunkLT]
  | inr s =>
    cases b with
    | inl n => simp [chunkLT] at hab
    | inr t =>
      cases c with
      | inl k => simp [chunkLT] at hbc
      | inr u =>
        simp only [chunkLT] at hab hbc ⊢
        exact charsLT_trans s t u hab hbc

theorem chunkLT_connex (a b : Chunk) (hab : chunkLT a b = false)
    (hne : a ≠ b) : chunkLT b a = true := by
  cases a with
  | inl m =>
    cases b with
    | inl n =>
      simp only [chunkLT, decide_eq_false_iff_not, decide_eq_true_eq] at hab ⊢
      have hmn : m ≠ n := fun h => hne (h ▸ rfl)
      omega
    | inr t => simp [chunkLT] at hab
  | inr s =>
    cases b with
    | inl n => simp [chunkLT]
    | inr t =>
      simp only [chunkLT] at hab ⊢
      have hst : s ≠ t := fun h => hne (h ▸ rfl)
      exact charsLT_connex s t hab hst

theorem keyLE_trans :
    ∀ (a b c : List Chunk), keyLE a b = true → keyLE b c = true →
      keyLE a c = true := by
  intro a
  induction a with
  | nil => intro b c _ _; simp [keyLE]
  | cons x xs ih =>
    intro b c hab hbc
    cases b with
    | nil => simp [keyLE] at hab
    | cons y ys =>
      cases c with
      | nil => simp [keyLE] at hbc
      | cons z zs =>
        simp only [keyLE, Bool.or_eq_true, Bool.and_eq_true,
          decide_eq_true_eq] at hab hbc ⊢
        rcases hab with h1 | ⟨hxy, h1⟩
        · rcases hbc with h2 | ⟨hyz, h2⟩
          · exact Or.inl (chunkLT_trans x y z h1 h2)
          · exact Or.inl (hyz ▸ h1)
        · rcases hbc with h2 | ⟨hyz, h2⟩
          · exact Or.inl (hxy ▸ h2)
          · exact Or.inr ⟨hxy.trans hyz, ih ys zs h1 h2⟩

theorem keyLE_total :
    ∀ (a b : List Chunk), keyLE a b = true ∨ keyLE b a = true := by
  intro a
  induction a with
  | nil => intro b; exact Or.inl rfl
  | cons x xs ih =>
    intro b
    cases b with
    | nil => exact Or.inr rfl
    | cons y ys =>
      simp only [keyLE, Bool.or_eq_true, Bool.and_eq_true, decide_eq_true_eq]
      by_cases hxy : x = y
      · subst hxy
        rcases ih ys with h | h
        · exact Or.inl (Or.inr ⟨rfl, h⟩)
        · exact Or.inr (Or.inr ⟨rfl, h⟩)
      · cases hlt : chunkLT x y with
        | true => exact Or.inl (Or.inl rfl)
        | false =>
          exact Or.inr (Or.inl (chunkLT_connex x y hlt hxy))

instance : IsTrans String NaturalBefore :=
  ⟨fun _ _ _ hab hbc => keyLE_trans _ _ _ hab hbc⟩

instance : IsTotal String NaturalBefore :=
  ⟨fun a b => keyLE_total (natural_sort_key a) (natural_sort_key b)⟩

/-- Does the first character list start with the second one?  Model of
str.startswith on the underlying characters. -/
def chars_starts_with : List Char → List Char → Bool
  | _, [] => true
  | [], _ :: _ => false
  | c :: cs, p :: ps => decide (c = p) && chars_starts_with cs ps

/-- Does the first character list end with the second one?  Model of
str.endswith on the underlying characters. -/
def chars_ends_with (s post : List Char) : Bool :=
  chars_starts_with s.reverse post.reverse

/-- Model of the glob pattern *.html on POSIX: the entry name ends in
.html (case sensitive) and is not a hidden file (glob does not match a
leading dot with *). -/
def is_html_entry (name : String) : Bool :=
  chars_ends_with name.data ['.', 'h', 't', 'm', 'l'] &&
    !(chars_starts_with name.data ['.'])

/-- Model of find_html_files from src/main.py: the folder is given by its
directory listing; keep the *.html entries and sort them with the natural
sort key.  Python sorted is a stable sort by the key, modelled by the
stable insertionSort with the key comparison natLE. -/
def find_html_files (entries : List String) : List String :=
  List.insertionSort NaturalBefore (entries.filter is_html_entry)

/-- Runs the per-document rendering loop: renders each file in order and
stops at the first file whose render raises (none), as the Python loops do
when an exception propagates.  On success, returns the page lists of all
documents in order. -/
def render_all (render : String → Option (List Nat)) :
    List String → Option (List (List Nat))
  | [] => some []
  | f :: fs =>
    match render f with
    | none => none
    | some pgs =>
      match render_all render fs with
      | none => none
      | some rest => some (pgs :: rest)

/-- Model of combine_documents_to_pdf from src/main.py.  The docs argument
is the list of HTML documents (identified by their source files); render
gives the pages WeasyPrint produces for a document, none meaning
html_doc.render raises.  The outer none models an exception escaping to
the caller; on a normal return, the first component is the page list
written to the output PDF (none when nothing was written) and the second
is the returned success flag. -/
def combine_documents_to_pdf (render : String → Option (List Nat))
    (docs : List String) : Option (Option (List Nat) × Bool) :=
  match render_all render docs with
  | none => none
  | some rendered =>
    if rendered.isEmpty then some (none, false)
    else
      let all_pages := rendered.flatten
      if all_pages.isEmpty then some (none, false)
      else some (some all_pages, true)

/-- The per-file loop of create_pdf_from_html_folder, with the temporary
file bookkeeping made explicit.  For the i-th file the loop first appends
the temp path doc_i.pdf to temp_pdf_files and then calls write_pdf, which
renders the document; if that render raises, the temp file was tracked
but never written and the loop stops.  Returns (tracked temp files,
temp files actually written to disk, loop outcome). -/
def temp_pdf_loop (render : String → Option (List Nat)) :
    List String → Nat → List Nat × List Nat × Option Unit
  | [], _ => ([], [], some ())
  | f :: fs, i =>
    match render f with
    | none => ([i], [], none)
    | some _ =>
      let r := temp_pdf_loop render fs (i + 1)
      (i :: r.1, i :: r.2.1, r.2.2)

/-- Model of cleanup_temp_files from src/main.py: every tracked temp file
that exists is removed, then the temp directory is removed, which
succeeds exactly when no file is left in it.  The os.remove and os.rmdir
calls themselves are modelled as succeeding.  Returns the files remaining
in the temp directory and whether the directory was removed. -/
def cleanup_temp_files (temp_files existing : List Nat) : List Nat × Bool :=
  let remaining := existing.filter fun f => !(temp_files.contains f)
  (remaining, remaining.isEmpty)

/-- Outcome of one invocation of create_pdf_from_html_folder. -/
structure CreateResult where
  written : Option (List Nat)
  ok : Bool
  tempLeft : List Nat
  tempDirRemoved : Bool
deriving Repr, DecidableEq

/-- Model of create_pdf_from_html_folder from src/main.py.  isdir says
whether the input folder exists, entries is its directory listing and
render is the WeasyPrint rendering of each HTML file.  The early returns
happen before the temp directory is created, so they leave no temp state;
afterwards the try/finally guarantees cleanup_temp_files runs on both the
normal and the exception path. -/
def create_pdf_from_html_folder (isdir : Bool) (entries : List String)
    (render : String → Option (List Nat)) : CreateResult :=
  if !isdir then ⟨none, false, [], true⟩
  else
    let html_files := find_html_files entries
    if html_files.isEmpty then ⟨none, false, [], true⟩
    else
      let loop := temp_pdf_loop render html_files 0
      let body : Option (List Nat) × Bool :=
        match loop.2.2 with
        | none => (none, false)
        | some _ =>
          match combine_documents_to_pdf render html_files with
          | none => (none, false)
          | some res => res
      let cleaned := cleanup_temp_files loop.1 loop.2.1
      ⟨body.1, body.2, cleaned.1, cleaned.2⟩

/-- Model of os.path.join for POSIX paths, as used with a folder and a
file name: an absolute second component replaces the first, an empty
first component is dropped, otherwise a single separator is inserted
unless the first component already ends with one. -/
def os_path_join (a b : String) : String :=
  if chars_starts_with b.data ['/'] then b
  else if a = "" then b
  else if chars_ends_with a.data ['/'] then a ++ b
  else a ++ "/" ++ b

/-- Model of os.path.basename for POSIX paths: the part after the last
slash. -/
def os_path_basename (s : String) : String :=
  String.mk ((s.data.reverse.takeWhile fun c => c ≠ '/').reverse)

/-- Model of os.path.splitext for POSIX paths: split at the last dot of
the basename, unless every character of the basename before that dot is
itself a dot (leading dots do not start an extension). -/
def os_path_splitext (s : String) : String × String :=
  let cs := s.data
  let baseRev := cs.reverse.takeWhile fun c => c ≠ '/'
  let k := (baseRev.takeWhile fun c => c ≠ '.').length
  if k < baseRev.length && (baseRev.drop (k + 1)).any (fun c => c ≠ '.') then
    (String.mk (cs.take (cs.length - (k + 1))),
     String.mk (cs.drop (cs.length - (k + 1))))
  else (s, "")

/-- Model of os.path.isabs for POSIX paths. -/
def os_path_isabs (s : String) : Bool := chars_starts_with s.data ['/']

/-- Model of os.path.dirname for POSIX paths: everything up to the last
slash, with trailing slashes stripped unless the result is all
slashes. -/
def os_path_dirname (s : String) : String :=
  let cs := s.data
  let baseLen := (cs.reverse.takeWhile fun c => c ≠ '/').length
  let head := cs.take (cs.length - baseLen)
  if head.isEmpty || head.all (fun c => c = '/') then String.mk head
  else String.mk (head.reverse.dropWhile fun c => c = '/').reverse

/-- Model of the final adjustment in get_input_parameters: if the chosen
name does not already end in .pdf (checked case-insensitively via
lower()), append .pdf. -/
def ensure_pdf_ext (s : String) : String :=
  if chars_ends_with (s.data.map Char.toLower) ['.', 'p', 'd', 'f'] then s
  else s ++ ".pdf"

/-- Model of str.strip for ASCII whitespace, as applied to interactive
input lines. -/
def py_strip (s : String) : String :=
  String.mk ((s.data.dropWhile Char.isWhitespace).reverse.dropWhile
    Char.isWhitespace).reverse

/-- Model of str.isdigit on ASCII data: nonempty and all digits. -/
def py_isdigit (s : String) : Bool :=
  !s.data.isEmpty && s.data.all isAsciiDigit

/-- Numeric value of a digit string, as computed by int(choice). -/
def py_str_to_nat (s : String) : Nat := digitsToNat s.data

/-- JSON values, the possible parses of the history file. -/
inductive Json where
  | null : Json
  | bool : Bool → Json
  | num : Int → Json
  | str : String → Json
  | arr : List Json → Json
  | obj : List (String × Json) → Json

/-- State of the history file on disk.  The unreadable case covers both
an I/O error while opening or reading the file and content that is not
valid JSON: in either case json.load raises inside the try block of
load_history. -/
inductive HistFile where
  | missing : HistFile
  | unreadable : HistFile
  | content : Json → HistFile

/-- Model of load_history from src/main.py.  Creating CONFIG_DIR is
modelled as succeeding.  A missing file and a failed read or parse (the
caught exception branch) both produce the empty structure; otherwise the
parsed JSON value is returned as is.  The function is total: it never
raises. -/
def load_history : HistFile → Json
  | HistFile.missing => Json.obj [("input_paths", Json.arr [])]
  | HistFile.unreadable => Json.obj [("input_paths", Json.arr [])]
  | HistFile.content j => j

/-- Model of save_history from src/main.py: the write is wrapped in
try/except, so a failed write only leaves the old file state.  The
function is total: it never raises. -/
def save_history (writeOk : Bool) (j : Json) (old : HistFile) : HistFile :=
  if writeOk then HistFile.content j else old

/-- Python equality between a JSON value and a string: only a JSON string
with the same characters is equal; values of other types compare unequal
without raising. -/
def jsonEqStr (j : Json) (s : String) : Bool :=
  match j with
  | Json.str t => decide (t = s)
  | _ => false

/-- Lookup of a key in a JSON object, modelling dict access. -/
def jsonLookup : List (String × Json) → String → Option Json
  | [], _ => none
  | (k, v) :: rest, key => if k = key then some v else jsonLookup rest key

/-- Replace the value of a key in a JSON object, or append the binding,
modelling dict item assignment. -/
def jsonSetKey : List (String × Json) → String → Json → List (String × Json)
  | [], key, v => [(key, v)]
  | (k, w) :: rest, key, v =>
    if k = key then (k, v) :: rest else (k, w) :: jsonSetKey rest key v

/-- Does the first character list contain the second as a contiguous
subsequence?  Model of the substring test of the Python in operator. -/
def chars_contains_seq : List Char → List Char → Bool
  | hay, needle =>
    if chars_starts_with hay needle then true
    else
      match hay with
      | [] => false
      | _ :: rest => chars_contains_seq rest needle

/-- Remove the first element of a JSON array equal to the given string,
modelling list.remove on a value known to be present. -/
def jsonRemoveFirst : List Json → String → List Json
  | [], _ => []
  | x :: xs, s =>
    if jsonEqStr x s then xs else x :: jsonRemoveFirst xs s

/-- Model of Python subscripting value[key] with a string key: succeeds
only on a dict that has the key; a dict without the key raises KeyError
and any non-dict raises a TypeError. -/
def py_getitem (j : Json) (key : String) : Except String Json :=
  match j with
  | Json.obj kvs =>
    match jsonLookup kvs key with
    | some v => Except.ok v
    | none => Except.error "KeyError"
  | _ => Except.error "TypeError"

/-- Model of the Python test (path in value): membership for a list,
substring for a string, key membership for a dict, TypeError for the
other JSON values. -/
def py_contains (j : Json) (path : String) : Except String Bool :=
  match j with
  | Json.arr xs => Except.ok (xs.any fun e => jsonEqStr e path)
  | Json.str s => Except.ok (chars_contains_seq s.data path.data)
  | Json.obj kvs => Except.ok (kvs.any fun kv => decide (kv.1 = path))
  | _ => Except.error "TypeError"

/-- Model of value.remove(path): only lists have remove; a missing element
raises ValueError. -/
def py_remove (j : Json) (path : String) : Except String Json :=
  match j with
  | Json.arr xs =>
    if xs.any (fun e => jsonEqStr e path) then
      Except.ok (Json.arr (jsonRemoveFirst xs path))
    else Except.error "ValueError"
  | _ => Except.error "AttributeError"

/-- Model of value.insert(0, path): only lists have insert. -/
def py_insert0 (j : Json) (path : String) : Except String Json :=
  match j with
  | Json.arr xs => Except.ok (Json.arr (Json.str path :: xs))
  | _ => Except.error "AttributeError"

/-- Model of the slice value[:3] as applied in update_input_history:
defined for lists and strings, TypeError otherwise. -/
def py_slice3 (j : Json) : Except String Json :=
  match j with
  | Json.arr xs => Except.ok (Json.arr (xs.take 3))
  | Json.str s => Except.ok (Json.str (String.mk (s.data.take 3)))
  | _ => Except.error "TypeError"

/-- Model of value[key] = v with a string key: item assignment is only
defined on a dict here; on a list a string index raises TypeError. -/
def py_setitem (j : Json) (key : String) (v : Json) : Except String Json :=
  match j with
  | Json.obj kvs => Except.ok (Json.obj (jsonSetKey kvs key v))
  | _ => Except.error "TypeError"

/-- Model of update_input_history from src/main.py, tracking every place
the Python code can raise on unexpected JSON shapes: load the history,
remove the path from history input_paths if present, insert it at the
front, keep the first three entries, store the list back and save.  The
result is the new history file state, or the uncaught exception. -/
def update_input_history (path : String) (file : HistFile) (writeOk : Bool) :
    Except String HistFile :=
  let history := load_history file
  match py_getitem history "input_paths" with
  | Except.error e => Except.error e
  | Except.ok ips =>
    match py_contains ips path with
    | Except.error e => Except.error e
    | Except.ok present =>
      match if present then py_remove ips path else Except.ok ips with
      | Except.error e => Except.error e
      | Except.ok ips2 =>
        match py_insert0 ips2 path with
        | Except.error e => Except.error e
        | Except.ok ips3 =>
          match py_slice3 ips3 with
          | Except.error e => Except.error e
          | Except.ok ips4 =>
            match py_setitem history "input_paths" ips4 with
            | Except.error e => Except.error e
            | Except.ok history2 =>
              Except.ok (save_history writeOk history2 file)

/-- The path-list transformation update_input_history performs on a
well-formed history: drop the first occurrence of the path if present,
push the path to the front, keep the first three entries. -/
def update_input_history_list (path : String) (l : List String) :
    List String :=
  let l2 := if path ∈ l then l.erase path else l
  (path :: l2).take 3

/-- Parsed command line arguments, as produced by parse_args. -/
structure Args where
  input : Option String
  output : Option String
  portrait : Bool
  interactive : Bool

/-- Result of get_input_parameters: either sys.exit with a status code or
the chosen input directory, output PDF name and page orientation. -/
inductive ParamResult where
  | exit : Nat → ParamResult
  | ok : String → String → String → ParamResult
deriving Repr, DecidableEq

/-- The input directory a ParamResult selected, if any. -/
def ParamResult.dirOf : ParamResult → Option String
  | ParamResult.exit _ => none
  | ParamResult.ok d _ _ => some d

/-- The output name a ParamResult selected, if any. -/
def ParamResult.outOf : ParamResult → Option String
  | ParamResult.exit _ => none
  | ParamResult.ok _ o _ => some o

/-- Model of get_input_directory_with_history from src/main.py.  The
stored history list is input_paths; read is the line read at the prompt,
none modelling EOF.  With a nonempty history, EOF falls back to the most
recent entry and a read line is either a 1-based selection into the
history or a new path; with no history, EOF exits with status 1.
Exceptions other than EOFError are not modelled, so the final generic
except branch that also exits with status 1 is unreachable here. -/
def get_input_directory_with_history (input_paths : List String)
    (read : Option String) : Except Nat String :=
  match input_paths with
  | _ :: _ =>
    match read with
    | some line =>
      let choice := py_strip line
      if py_isdigit choice && 1 ≤ py_str_to_nat choice &&
          py_str_to_nat choice ≤ input_paths.length then
        Except.ok (input_paths.getD (py_str_to_nat choice - 1) "")
      else Except.ok choice
    | none => Except.ok (input_paths.headD "")
  | [] =>
    match read with
    | some line => Except.ok (py_strip line)
    | none => Except.error 1

/-- The default output PDF path computed by get_input_parameters when no
output name is given: the basename of the first discovered HTML file with
its extension replaced by .pdf, inside the input directory, or output.pdf
there when no HTML file was found. -/
def default_output_path (input_directory : String) (entries : List String) :
    String :=
  match find_html_files entries with
  | f :: _ =>
    os_path_join input_directory
      ((os_path_splitext (os_path_basename f)).1 ++ ".pdf")
  | [] => os_path_join input_directory "output.pdf"

/-- Model of get_input_parameters from src/main.py.  listing gives the
directory listing of any folder; r1, r2, r3 are the lines read at the
directory, output-name and orientation prompts of the interactive branch,
none modelling EOF.  The interactive branch is taken when --interactive
is set or --input is absent.  Exceptions other than EOFError are not
modelled, so the generic except fallback of the interactive branch is
unreachable here. -/
def get_input_parameters (args : Args) (hist : List String)
    (listing : String → List String) (r1 r2 r3 : Option String) :
    ParamResult :=
  if args.interactive || args.input.isNone then
    match get_input_directory_with_history hist r1 with
    | Except.error c => ParamResult.exit c
    | Except.ok input_directory =>
      let default_output := default_output_path input_directory
        (listing input_directory)
      let output_pdf_name :=
        match r2 with
        | some line =>
          let s := py_strip line
          if s = "" then default_output
          else if !os_path_isabs s && os_path_dirname s = "" then
            os_path_join input_directory s
          else s
        | none => default_output
      let page_orientation :=
        match r3 with
        | some line =>
          if py_strip line = "1" then "portrait" else "landscape"
        | none => "landscape"
      ParamResult.ok input_directory (ensure_pdf_ext output_pdf_name)
        page_orientation
  else
    let input_directory := args.input.getD ""
    let output_pdf_name :=
      match args.output with
      | none => default_output_path input_directory (listing input_directory)
      | some o =>
        if !os_path_isabs o && os_path_dirname o = "" then
          os_path_join input_directory o
        else o
    let page_orientation := if args.portrait then "portrait" else "landscape"
    ParamResult.ok input_directory (ensure_pdf_ext output_pdf_name)
      page_orientation

/-- The file system and renderer a run sees: which folders exist, the
directory listing of each folder and the WeasyPrint rendering of each
HTML file. -/
structure Fs where
  dirs : List String
  listing : String → List String
  render : String → Option (List Nat)

/-- Observable outcome of one run of main. -/
structure RunOut where
  exitCode : Nat
  histAfter : List String
  written : Option (List Nat)
  pdfOk : Bool

/-- Model of main from src/main.py: obtain the parameters, update the
history with the chosen input directory, then create the PDF.  The
history is represented by its input_paths list; main itself never exits
with a nonzero status, so a run that gets past get_input_parameters ends
with status 0 regardless of the PDF outcome. -/
def main_run (args : Args) (hist : List String) (r1 r2 r3 : Option String)
    (fs : Fs) : RunOut :=
  match get_input_parameters args hist fs.listing r1 r2 r3 with
  | ParamResult.exit c => ⟨c, hist, none, false⟩
  | ParamResult.ok input_directory _ _ =>
    let hist2 := update_input_history_list input_directory hist
    let res := create_pdf_from_html_folder (fs.dirs.contains input_directory)
      (fs.listing input_directory) fs.render
    ⟨0, hist2, res.written, res.ok⟩

/-- A history file state on which update_input_history finds the shape it
expects: loading it yields a JSON object whose input_paths key holds an
array. -/
def history_well_shaped (f : HistFile) : Bool :=
  match py_getitem (load_history f) "input_paths" with
  | Except.ok (Json.arr _) => true
  | _ => false

theorem chars_starts_with_append_left :
    ∀ (q u v : List Char), chars_starts_with u q = true →
      chars_starts_with (u ++ v) q = true := by
  intro q
  induction q with
  | nil => intro u v _; simp [chars_starts_with]
  | cons p ps ih =>
    intro u v h
    cases u with
    | nil => simp [chars_starts_with] at h
    | cons c cs =>
      simp only [chars_starts_with, Bool.and_eq_true, decide_eq_true_eq,
        List.cons_append] at h ⊢
      exact ⟨h.1, ih cs v h.2⟩

theorem chars_ends_with_append_right (a b p : List Char)
    (h : chars_ends_with b p = true) :
    chars_ends_with (a ++ b) p = true := by
  unfold chars_ends_with at h ⊢
  rw [List.reverse_append]
  exact chars_starts_with_append_left _ _ _ h

theorem chars_starts_with_map (f : Char → Char) :
    ∀ (q u : List Char), chars_starts_with u q = true →
      chars_starts_with (u.map f) (q.map f) = true := by
  intro q
  induction q with
  | nil => intro u _; simp [chars_starts_with]
  | cons p ps ih =>
    intro u h
    cases u with
    | nil => simp [chars_starts_with] at h
    | cons c cs =>
      simp only [chars_starts_with, Bool.and_eq_true, decide_eq_true_eq,
        List.map_cons] at h ⊢
      exact ⟨by rw [h.1], ih cs h.2⟩

theorem chars_ends_with_map (f : Char → Char) (s p : List Char)
    (h : chars_ends_with s p = true) :
    chars_ends_with (s.map f) (p.map f) = true := by
  unfold chars_ends_with at h ⊢
  rw [← List.map_reverse, ← List.map_reverse]
  exact chars_starts_with_map f _ _ h

theorem ends_with_pdf_append (x : String) :
    chars_ends_with (x ++ ".pdf").data ['.', 'p', 'd', 'f'] = true := by
  rw [String.data_append]
  exact chars_ends_with_append_right _ _ _ (by decide)

theorem ensure_pdf_ext_of_pdf (s : String)
    (h : chars_ends_with s.data ['.', 'p', 'd', 'f'] = true) :
    ensure_pdf_ext s = s := by
  unfold ensure_pdf_ext
  have hl := chars_ends_with_map Char.toLower s.data ['.', 'p', 'd', 'f'] h
  have hmap : List.map Char.toLower ['.', 'p', 'd', 'f'] = ['.', 'p', 'd', 'f'] := by
    decide
  rw [hmap] at hl
  simp [hl]

theorem os_path_join_ends_with (a b : String) (p : List Char)
    (h : chars_ends_with b.data p = true) :
    chars_ends_with (os_path_join a b).data p = true := by
  unfold os_path_join
  by_cases h1 : chars_starts_with b.data ['/'] = true
  · rw [if_pos h1]; exact h
  · rw [if_neg h1]
    by_cases h2 : a = ""
    · rw [if_pos h2]; exact h
    · rw [if_neg h2]
      by_cases h3 : chars_ends_with a.data ['/'] = true
      · rw [if_pos h3, String.data_append]
        exact chars_ends_with_append_right _ _ _ h
      · rw [if_neg h3, String.data_append, String.data_append]
        rw [List.append_assoc]
        exact chars_ends_with_append_right _ _ _
          (chars_ends_with_append_right _ _ _ h)

theorem default_output_path_ends_pdf (dir : String) (entries : List String) :
    chars_ends_with (default_output_path dir entries).data
      ['.', 'p', 'd', 'f'] = true := by
  unfold default_output_path
  cases hf : find_html_files entries with
  | nil =>
    exact os_path_join_ends_with dir "output.pdf" _ (by decide)
  | cons f rest =>
    exact os_path_join_ends_with dir _ _ (ends_with_pdf_append _)

theorem render_all_some (render : String → Option (List Nat)) :
    ∀ (l : List String), (∀ f ∈ l, (render f).isSome = true) →
      render_all render l = some (l.map fun f => (render f).getD []) := by
  intro l
  induction l with
  | nil => intro _; rfl
  | cons f fs ih =>
    intro h
    have hf : (render f).isSome = true := h f (List.mem_cons_self f fs)
    have hfs : ∀ g ∈ fs, (render g).isSome = true :=
      fun g hg => h g (List.mem_cons_of_mem f hg)
    unfold render_all
    cases hr : render f with
    | none => rw [hr] at hf; simp [Option.isSome] at hf
    | some pgs =>
      rw [ih hfs]
      simp [hr]

theorem temp_pdf_loop_ok (render : String → Option (List Nat)) :
    ∀ (l : List String) (i : Nat), (∀ f ∈ l, (render f).isSome = true) →
      (temp_pdf_loop render l i).2.2 = some () := by
  intro l
  induction l with
  | nil => intro i _; rfl
  | cons f fs ih =>
    intro i h
    have hf : (render f).isSome = true := h f (List.mem_cons_self f fs)
    unfold temp_pdf_loop
    cases hr : render f with
    | none => rw [hr] at hf; simp [Option.isSome] at hf
    | some pgs =>
      exact ih (i + 1) fun g hg => h g (List.mem_cons_of_mem f hg)

theorem temp_pdf_loop_fail (render : String → Option (List Nat)) :
    ∀ (l : List String) (i : Nat), (∃ f ∈ l, render f = none) →
      (temp_pdf_loop render l i).2.2 = none := by
  intro l
  induction l with
  | nil => intro i h; obtain ⟨f, hf, _⟩ := h; exact absurd hf (List.not_mem_nil f)
  | cons g fs ih =>
    intro i h
    unfold temp_pdf_loop
    cases hr : render g with
    | none => rfl
    | some pgs =>
      obtain ⟨f, hf, hnone⟩ := h
      rcases List.mem_cons.mp hf with heq | hmem
      · rw [heq] at hnone; rw [hnone] at hr; exact absurd hr (by simp)
      · exact ih (i + 1) ⟨f, hmem, hnone⟩

theorem temp_pdf_loop_written_tracked (render : String → Option (List Nat)) :
    ∀ (l : List String) (i : Nat) (x : Nat),
      x ∈ (temp_pdf_loop render l i).2.1 → x ∈ (temp_pdf_loop render l i).1 := by
  intro l
  induction l with
  | nil => intro i x h; exact absurd h (List.not_mem_nil x)
  | cons f fs ih =>
    intro i x h
    unfold temp_pdf_loop at h ⊢
    cases hr : render f with
    | none => rw [hr] at h; exact absurd h (List.not_mem_nil x)
    | some pgs =>
      rw [hr] at h
      simp only [List.mem_cons] at h ⊢
      rcases h with heq | hmem
      · exact Or.inl heq
      · exact Or.inr (ih (i + 1) x hmem)

/-- C2: for every directory listing, find_html_files returns the *.html
entries sorted by the natural order NaturalBefore, which compares the
natural_sort_key lists obtained by splitting each name into maximal digit
runs and non-digit runs, digit runs comparing by numeric value; in
particular sesion2.html sorts before sesion10.html. -/
theorem find_html_files_natural_sort (entries : List String) :
    List.Sorted NaturalBefore (find_html_files entries) ∧
    (find_html_files entries).Perm (entries.filter is_html_entry) ∧
    find_html_files ["sesion10.html", "sesion2.html"] =
      ["sesion2.html", "sesion10.html"] :=
  ⟨List.sorted_insertionSort NaturalBefore (entries.filter is_html_entry),
   List.perm_insertionSort NaturalBefore (entries.filter is_html_entry),
   by decide⟩

/-- C3: starting from a history list of at most three pairwise distinct
entries, update_input_history_list (the path-list transformation
update_input_history performs) yields a list of length at most three with
no duplicates, whose first element is the new path, and whose remaining
entries appear in the same relative order as in the old list. -/
theorem update_input_history_list_invariants (p : String) (l : List String)
    (hnd : l.Nodup) (hlen : l.length ≤ 3) :
    (update_input_history_list p l).length ≤ 3 ∧
    (update_input_history_list p l).Nodup ∧
    (update_input_history_list p l).head? = some p ∧
    (update_input_history_list p l).tail.Sublist l := by
  have herase : (if p ∈ l then l.erase p else l) = l.erase p := by
    split
    · rfl
    · exact (List.erase_of_not_mem (by assumption)).symm
  have hupd : update_input_history_list p l = p :: (l.erase p).take 2 := by
    unfold update_input_history_list
    rw [herase, List.take_succ_cons]
  rw [hupd]
  refine ⟨?_, ?_, rfl, ?_⟩
  · simp only [List.length_cons, List.length_take]
    omega
  · rw [List.nodup_cons]
    constructor
    · intro hmem
      have hmem2 : p ∈ l.erase p :=
        (List.take_sublist 2 (l.erase p)).mem hmem
      rw [hnd.mem_erase_iff] at hmem2
      exact hmem2.1 rfl
    · exact ((List.take_sublist 2 (l.erase p)).nodup) (hnd.erase p)
  · exact (List.take_sublist 2 (l.erase p)).trans (List.erase_sublist p l)

/-- Witness for C3 at a concrete history. -/
theorem update_input_history_list_invariants_witness :
    (["b", "c"] : List String).Nodup ∧ (["b", "c"] : List String).length ≤ 3 ∧
    ((update_input_history_list "a" ["b", "c"]).length ≤ 3 ∧
      (update_input_history_list "a" ["b", "c"]).Nodup ∧
      (update_input_history_list "a" ["b", "c"]).head? = some "a" ∧
      (update_input_history_list "a" ["b", "c"]).tail.Sublist ["b", "c"]) :=
  ⟨by decide, by decide,
   update_input_history_list_invariants "a" ["b", "c"] (by decide) (by decide)⟩

/-- C10: load_history returns the empty structure when the history file is
missing or cannot be read or parsed, and otherwise returns the parsed
JSON content unchanged; as a total Lean function over every file state it
never raises. -/
theorem load_history_spec (j : Json) :
    load_history HistFile.missing = Json.obj [("input_paths", Json.arr [])] ∧
    load_history HistFile.unreadable =
      Json.obj [("input_paths", Json.arr [])] ∧
    load_history (HistFile.content j) = j :=
  ⟨rfl, rfl, rfl⟩

/-- C6: after every invocation of create_pdf_from_html_folder, whatever
the folder state and however rendering went, no temporary PDF file
remains and the temporary directory has been removed: every temp file is
recorded in temp_pdf_files before write_pdf can raise, and the finally
block removes the recorded files and then the directory. -/
theorem create_pdf_temp_cleanup (isdir : Bool) (entries : List String)
    (render : String → Option (List Nat)) :
    (create_pdf_from_html_folder isdir entries render).tempLeft = [] ∧
    (create_pdf_from_html_folder isdir entries render).tempDirRemoved =
      true := by
  unfold create_pdf_from_html_folder
  cases isdir with
  | false => exact ⟨rfl, rfl⟩
  | true =>
    simp only [Bool.not_true, Bool.false_eq_true, if_false]
    cases hE : (find_html_files entries).isEmpty with
    | true => simp
    | false =>
      simp only [Bool.false_eq_true, if_false]
      have hrem : (cleanup_temp_files
          (temp_pdf_loop render (find_html_files entries) 0).1
          (temp_pdf_loop render (find_html_files entries) 0).2.1).1 = [] := by
        unfold cleanup_temp_files
        simp only
        rw [List.filter_eq_nil_iff]
        intro x hx
        have hmem := temp_pdf_loop_written_tracked render
          (find_html_files entries) 0 x hx
        simp [List.elem_iff, hmem]
      constructor
      · exact hrem
      · unfold cleanup_temp_files at hrem ⊢
        simp only at hrem ⊢
        rw [hrem]
        rfl

/-- Counterexample to C4 as stated: with two HTML files where the first
fails to render and the second renders fine, the claim predicts a PDF
built from the second file; the code instead catches the error, aborts
the whole run and produces no PDF at all. -/
theorem render_failure_no_skip_cex :
    (create_pdf_from_html_folder true ["a.html", "b.html"]
      (fun f => if f = "b.html" then some [1] else none)).written = none ∧
    (create_pdf_from_html_folder true ["a.html", "b.html"]
      (fun f => if f = "b.html" then some [1] else none)).ok = false := by
  decide

/-- C4 as amended: when the render of any discovered HTML file fails, the
failure is caught (create_pdf_from_html_folder returns normally rather
than propagating the exception), but the run is aborted: the function
returns False and no PDF is produced, the remaining files are not
processed. -/
theorem render_failure_aborts (isdir : Bool) (entries : List String)
    (render : String → Option (List Nat))
    (hfail : ∃ f ∈ find_html_files entries, render f = none) :
    (create_pdf_from_html_folder isdir entries render).written = none ∧
    (create_pdf_from_html_folder isdir entries render).ok = false := by
  unfold create_pdf_from_html_folder
  cases isdir with
  | false => exact ⟨rfl, rfl⟩
  | true =>
    simp only [Bool.not_true, Bool.false_eq_true, if_false]
    cases hE : (find_html_files entries).isEmpty with
    | true =>
      obtain ⟨f, hf, _⟩ := hfail
      rw [List.isEmpty_iff.mp hE] at hf
      exact absurd hf (List.not_mem_nil f)
    | false =>
      simp only [Bool.false_eq_true, if_false]
      rw [temp_pdf_loop_fail render (find_html_files entries) 0 hfail]
      exact ⟨rfl, rfl⟩

/-- Witness for the amended C4 at a concrete failing input. -/
theorem render_failure_aborts_witness :
    (∃ f ∈ find_html_files ["c.html", "d.html"],
      (fun g => if g = "c.html" then some [7] else none) f =
        (none : Option (List Nat))) ∧
    ((create_pdf_from_html_folder true ["c.html", "d.html"]
        (fun g => if g = "c.html" then some [7] else none)).written = none ∧
      (create_pdf_from_html_folder true ["c.html", "d.html"]
        (fun g => if g = "c.html" then some [7] else none)).ok = false) :=
  ⟨⟨"d.html", by decide, by decide⟩,
   render_failure_aborts true ["c.html", "d.html"]
     (fun g => if g = "c.html" then some [7] else none)
     ⟨"d.html", by decide, by decide⟩⟩

theorem combine_documents_ok (render : String → Option (List Nat))
    (docs : List String) (hdne : docs ≠ [])
    (hsome : ∀ f ∈ docs, (render f).isSome = true)
    (hpages : ∃ f ∈ docs, (render f).getD [] ≠ []) :
    combine_documents_to_pdf render docs =
      some (some (docs.map fun f => (render f).getD []).flatten, true) := by
  unfold combine_documents_to_pdf
  rw [render_all_some render docs hsome]
  have h1 : (docs.map fun f => (render f).getD []).isEmpty = false := by
    rw [List.isEmpty_eq_false]
    intro h
    exact hdne (List.map_eq_nil_iff.mp h)
  simp only []
  rw [h1]
  simp only [Bool.false_eq_true, if_false]
  have h2 : ((docs.map fun f => (render f).getD []).flatten).isEmpty = false := by
    rw [List.isEmpty_eq_false]
    intro h
    obtain ⟨f, hf, hne2⟩ := hpages
    exact hne2 (List.flatten_eq_nil_iff.mp h _ (List.mem_map_of_mem _ hf))
  rw [h2]
  simp

/-- C1: when the input folder exists, HTML files are discovered and every
one of them renders successfully (a successful WeasyPrint render yields at
least one page), create_pdf_from_html_folder writes a single output PDF
whose pages are the concatenation of the pages of the individually
rendered documents taken in natural-sort filename order, so its page
count is the sum of the page counts of the rendered documents. -/
theorem create_pdf_concatenates_pages (entries : List String)
    (render : String → Option (List Nat))
    (hne : find_html_files entries ≠ [])
    (hok : ∀ f ∈ find_html_files entries,
      (render f).isSome = true ∧ (render f).getD [] ≠ []) :
    (create_pdf_from_html_folder true entries render).written =
      some ((find_html_files entries).map fun f => (render f).getD []).flatten ∧
    (create_pdf_from_html_folder true entries render).ok = true ∧
    ((find_html_files entries).map fun f => (render f).getD []).flatten.length
      = ((find_html_files entries).map fun f =>
          ((render f).getD []).length).sum ∧
    List.Sorted NaturalBefore (find_html_files entries) := by
  have hsome : ∀ f ∈ find_html_files entries, (render f).isSome = true :=
    fun f hf => (hok f hf).1
  have hpages : ∃ f ∈ find_html_files entries, (render f).getD [] ≠ [] := by
    obtain ⟨f, hf⟩ := List.exists_mem_of_ne_nil (find_html_files entries) hne
    exact ⟨f, hf, (hok f hf).2⟩
  have hE : (find_html_files entries).isEmpty = false :=
    List.isEmpty_eq_false.mpr hne
  have hcw : (create_pdf_from_html_folder true entries render).written =
        some ((find_html_files entries).map fun f =>
          (render f).getD []).flatten ∧
      (create_pdf_from_html_folder true entries render).ok = true := by
    unfold create_pdf_from_html_folder
    simp only [Bool.not_true, Bool.false_eq_true, if_false]
    rw [hE]
    simp only [Bool.false_eq_true, if_false,
      temp_pdf_loop_ok render (find_html_files entries) 0 hsome,
      combine_documents_ok render (find_html_files entries) hne hsome hpages]
    simp
  refine ⟨hcw.1, hcw.2, ?_, ?_⟩
  · rw [List.length_flatten, List.map_map]
    rfl
  · exact List.sorted_insertionSort NaturalBefore _

/-- Witness for C1 at a concrete folder with two HTML files that render
to one and two pages respectively. -/
theorem create_pdf_concatenates_pages_witness :
    (find_html_files ["b10.html", "b2.html"] ≠ []) ∧
    (∀ f ∈ find_html_files ["b10.html", "b2.html"],
      ((fun g => if g = "b2.html" then some [1] else
        if g = "b10.html" then some [2, 3] else none) f).isSome = true ∧
      ((fun g => if g = "b2.html" then some [1] else
        if g = "b10.html" then some [2, 3] else none) f).getD [] ≠ []) ∧
    (create_pdf_from_html_folder true ["b10.html", "b2.html"]
        (fun g => if g = "b2.html" then some [1] else
          if g = "b10.html" then some [2, 3] else none)).written =
      some ((find_html_files ["b10.html", "b2.html"]).map fun f =>
        (((fun g => if g = "b2.html" then some [1] else
          if g = "b10.html" then some [2, 3] else none)) f).getD []).flatten :=
  ⟨by decide, by decide,
   (create_pdf_concatenates_pages ["b10.html", "b2.html"]
     (fun g => if g = "b2.html" then some [1] else
       if g = "b10.html" then some [2, 3] else none)
     (by decide) (by decide)).1⟩

/-- C7: when no output name is supplied, the default output PDF name is
the basename of the first discovered HTML file in natural-sort order with
its extension replaced by .pdf, placed in the input folder; with no HTML
files discovered it is output.pdf in the input folder; and in either case
the final output name ends with .pdf. -/
theorem default_output_name_spec (dir : String)
    (listing : String → List String) (portrait : Bool) (hist : List String)
    (r1 r2 r3 : Option String) :
    (find_html_files (listing dir) = [] →
      (get_input_parameters ⟨some dir, none, portrait, false⟩ hist listing
        r1 r2 r3).outOf = some (os_path_join dir "output.pdf")) ∧
    (∀ f rest, find_html_files (listing dir) = f :: rest →
      (get_input_parameters ⟨some dir, none, portrait, false⟩ hist listing
        r1 r2 r3).outOf = some (os_path_join dir
          ((os_path_splitext (os_path_basename f)).1 ++ ".pdf"))) ∧
    (∃ out, (get_input_parameters ⟨some dir, none, portrait, false⟩ hist
        listing r1 r2 r3).outOf = some out ∧
      chars_ends_with out.data ['.', 'p', 'd', 'f'] = true) := by
  have hpdf := default_output_path_ends_pdf dir (listing dir)
  have hout : (get_input_parameters ⟨some dir, none, portrait, false⟩ hist
      listing r1 r2 r3).outOf =
      some (default_output_path dir (listing dir)) := by
    have h0 : (get_input_parameters ⟨some dir, none, portrait, false⟩ hist
        listing r1 r2 r3).outOf =
        some (ensure_pdf_ext (default_output_path dir (listing dir))) := rfl
    rw [h0, ensure_pdf_ext_of_pdf _ hpdf]
  refine ⟨?_, ?_, ?_⟩
  · intro hnil
    rw [hout]
    unfold default_output_path
    rw [hnil]
  · intro f rest hcons
    rw [hout]
    unfold default_output_path
    rw [hcons]
  · exact ⟨_, hout, hpdf⟩

/-- Witness for C7 at a concrete folder whose naturally first HTML file is
s2.html. -/
theorem default_output_name_spec_witness :
    find_html_files ((fun _ => ["s10.html", "s2.html"]) "d") =
      "s2.html" :: ["s10.html"] ∧
    (get_input_parameters ⟨some "d", none, false, false⟩ []
        (fun _ => ["s10.html", "s2.html"]) none none none).outOf =
      some (os_path_join "d"
        ((os_path_splitext (os_path_basename "s2.html")).1 ++ ".pdf")) :=
  ⟨by decide,
   (default_output_name_spec "d" (fun _ => ["s10.html", "s2.html"]) false []
     none none none).2.1 "s2.html" ["s10.html"] (by decide)⟩

/-- Counterexample to C8 as stated: the history file containing the valid
JSON text of an empty object makes update_input_history raise an uncaught
KeyError when it subscripts the loaded history, contradicting the claim
that it completes without raising for arbitrary JSON content. -/
theorem update_history_raises_cex :
    update_input_history "p" (HistFile.content (Json.obj [])) true =
      Except.error "KeyError" := rfl

/-- C8 as amended: load_history and save_history are total over every
state of the history file, and update_input_history completes without
raising whenever the history file is missing, unreadable or unparseable,
or holds a JSON object whose input_paths key is an array; on other valid
JSON shapes it can raise. -/
theorem history_update_no_raise (p : String) (f : HistFile) (w : Bool)
    (hshape : history_well_shaped f = true) :
    ∃ f2, update_input_history p f w = Except.ok f2 := by
  unfold history_well_shaped at hshape
  cases hg : py_getitem (load_history f) "input_paths" with
  | error e => rw [hg] at hshape; exact absurd hshape (by simp)
  | ok v =>
    rw [hg] at hshape
    cases v with
    | arr xs =>
      have hobj : ∃ kvs, load_history f = Json.obj kvs := by
        cases hl : load_history f <;>
          first
            | exact ⟨_, rfl⟩
            | (rw [hl] at hg; exact absurd hg (by simp [py_getitem]))
      obtain ⟨kvs, hl⟩ := hobj
      rw [hl] at hg
      unfold update_input_history
      simp only [hl, hg]
      simp only [py_contains]
      cases hc : xs.any (fun e => jsonEqStr e p) with
      | true =>
        simp only [py_remove, hc, if_true, py_insert0, py_slice3, py_setitem]
        exact ⟨_, rfl⟩
      | false =>
        simp only [py_remove, hc, if_false, py_insert0, py_slice3, py_setitem]
        exact ⟨_, rfl⟩
    | null => exact absurd hshape (by simp)
    | bool b => exact absurd hshape (by simp)
    | num n => exact absurd hshape (by simp)
    | str s => exact absurd hshape (by simp)
    | obj kvs => exact absurd hshape (by simp)

/-- Witness for the amended C8 on a missing history file. -/
theorem history_update_no_raise_witness :
    history_well_shaped HistFile.missing = true ∧
    ∃ f2, update_input_history "a" HistFile.missing true = Except.ok f2 :=
  ⟨rfl, history_update_no_raise "a" HistFile.missing true rfl⟩

/-- C9: main updates the recent-paths history with the chosen input
directory before any validation of that directory: whatever the file
system looks like, a run that gets past get_input_parameters leaves the
history equal to update_input_history_list applied to the chosen
directory, with that directory as the most recent entry, even when the
directory does not exist, holds no HTML files or PDF creation fails. -/
theorem main_records_history_first (args : Args) (hist : List String)
    (r1 r2 r3 : Option String) (fs : Fs) (dir out orient : String)
    (hp : get_input_parameters args hist fs.listing r1 r2 r3 =
      ParamResult.ok dir out orient) :
    (main_run args hist r1 r2 r3 fs).histAfter =
      update_input_history_list dir hist ∧
    (main_run args hist r1 r2 r3 fs).histAfter.head? = some dir := by
  have hmain : (main_run args hist r1 r2 r3 fs).histAfter =
      update_input_history_list dir hist := by
    unfold main_run
    rw [hp]
  refine ⟨hmain, ?_⟩
  rw [hmain]
  unfold update_input_history_list
  rw [List.take_succ_cons]
  rfl

/-- Witness for C9 at a concrete run whose input folder does not exist:
the history still records the path while the PDF step fails. -/
theorem main_records_history_first_witness :
    get_input_parameters ⟨some "ghost", none, false, false⟩ []
        (Fs.mk [] (fun _ => []) (fun _ => none)).listing none none none =
      ParamResult.ok "ghost" (os_path_join "ghost" "output.pdf")
        "landscape" ∧
    (main_run ⟨some "ghost", none, false, false⟩ [] none none none
        (Fs.mk [] (fun _ => []) (fun _ => none))).histAfter =
      update_input_history_list "ghost" [] ∧
    (main_run ⟨some "ghost", none, false, false⟩ [] none none none
        (Fs.mk [] (fun _ => []) (fun _ => none))).pdfOk = false :=
  ⟨by decide,
   (main_records_history_first ⟨some "ghost", none, false, false⟩ []
     none none none (Fs.mk [] (fun _ => []) (fun _ => none)) "ghost"
     (os_path_join "ghost" "output.pdf") "landscape" (by decide)).1,
   by decide⟩

theorem get_input_directory_ok (h : String) (t : List String)
    (r : Option String) :
    ∃ d, get_input_directory_with_history (h :: t) r = Except.ok d := by
  cases r with
  | none => exact ⟨_, rfl⟩
  | some line =>
    cases hd : (py_isdigit (py_strip line) &&
        decide (1 ≤ py_str_to_nat (py_strip line)) &&
        decide (py_str_to_nat (py_strip line) ≤ (h :: t).length)) with
    | true =>
      refine ⟨(h :: t).getD (py_str_to_nat (py_strip line) - 1) "", ?_⟩
      unfold get_input_directory_with_history
      simp only [hd]
      rfl
    | false =>
      refine ⟨py_strip line, ?_⟩
      unfold get_input_directory_with_history
      simp only [hd]
      rfl

theorem get_input_parameters_cases (args : Args) (hist : List String)
    (listing : String → List String) (r1 r2 r3 : Option String) :
    (((args.interactive || args.input.isNone) = true ∧ hist = [] ∧
        r1 = none) ∧
      get_input_parameters args hist listing r1 r2 r3 = ParamResult.exit 1) ∨
    (¬((args.interactive || args.input.isNone) = true ∧ hist = [] ∧
        r1 = none) ∧
      ∃ d o c, get_input_parameters args hist listing r1 r2 r3 =
        ParamResult.ok d o c) := by
  cases hbr : args.interactive || args.input.isNone with
  | false =>
    refine Or.inr ⟨?_, ?_⟩
    · rintro ⟨h1, _, _⟩
      exact absurd h1 (by simp)
    · unfold get_input_parameters
      rw [hbr]
      simp only [Bool.false_eq_true, if_false]
      exact ⟨_, _, _, rfl⟩
  | true =>
    cases hist with
    | nil =>
      cases r1 with
      | none =>
        refine Or.inl ⟨⟨rfl, rfl, rfl⟩, ?_⟩
        unfold get_input_parameters
        rw [hbr]
        rfl
      | some line =>
        refine Or.inr ⟨?_, ?_⟩
        · rintro ⟨_, _, h3⟩
          exact absurd h3 (by simp)
        · unfold get_input_parameters
          rw [hbr]
          exact ⟨_, _, _, rfl⟩
    | cons h t =>
      refine Or.inr ⟨?_, ?_⟩
      · rintro ⟨_, h2, _⟩
        exact absurd h2 (by simp)
      · obtain ⟨d, hd⟩ := get_input_directory_ok h t r1
        unfold get_input_parameters
        rw [hbr, hd]
        exact ⟨_, _, _, rfl⟩

/-- Counterexample to C5 as stated: in non-interactive mode with an input
folder that does not exist, the claim predicts exit status 1; the run
instead logs the error inside create_pdf_from_html_folder, which returns
False, and main finishes normally with exit status 0. -/
theorem missing_folder_exit_zero_cex :
    (main_run ⟨some "missing", none, false, false⟩ [] none none none
      (Fs.mk [] (fun _ => []) (fun _ => none))).exitCode = 0 ∧
    (Fs.mk [] (fun _ => [])
      (fun _ => (none : Option (List Nat)))).dirs.contains "missing" =
        false ∧
    (main_run ⟨some "missing", none, false, false⟩ [] none none none
      (Fs.mk [] (fun _ => []) (fun _ => none))).pdfOk = false := by
  decide

/-- C5 as amended: the program exits with status 1 exactly when the
interactive branch is taken (--interactive or no --input), the history
is empty and the directory prompt hits EOF; every other run ends with
status 0, including non-interactive runs whose input folder is missing;
and when history entries exist, EOF at the prompt falls back to the most
recent entry. -/
theorem exit_code_one_characterization (args : Args) (hist : List String)
    (r1 r2 r3 : Option String) (fs : Fs) :
    ((main_run args hist r1 r2 r3 fs).exitCode = 1 ↔
      ((args.interactive || args.input.isNone) = true ∧ hist = [] ∧
        r1 = none)) ∧
    ((main_run args hist r1 r2 r3 fs).exitCode = 0 ∨
      (main_run args hist r1 r2 r3 fs).exitCode = 1) ∧
    (∀ h t, (args.interactive || args.input.isNone) = true →
      hist = h :: t → r1 = none →
      (get_input_parameters args hist fs.listing r1 r2 r3).dirOf =
        some h) := by
  rcases get_input_parameters_cases args hist fs.listing r1 r2 r3 with
    ⟨hcond, hexit⟩ | ⟨hncond, d, o, c, hok⟩
  · have hmain : (main_run args hist r1 r2 r3 fs).exitCode = 1 := by
      unfold main_run
      rw [hexit]
    refine ⟨⟨fun _ => hcond, fun _ => hmain⟩, Or.inr hmain, ?_⟩
    intro h t _ hh _
    rw [hcond.2.1] at hh
    exact absurd hh (by simp)
  · have hmain : (main_run args hist r1 r2 r3 fs).exitCode = 0 := by
      unfold main_run
      rw [hok]
    refine ⟨⟨?_, fun hrhs => absurd hrhs hncond⟩, Or.inl hmain, ?_⟩
    · intro h1
      rw [hmain] at h1
      exact absurd h1 (by simp)
    · intro h t hbr2 hh hr
      subst hh
      subst hr
      unfold get_input_parameters
      rw [hbr2]
      rfl

/-- Witness for the amended C5: with two history entries and EOF at the
directory prompt, the run falls back to the most recent entry. -/
theorem exit_code_one_characterization_witness :
    ((⟨none, none, false, true⟩ : Args).interactive ||
      (⟨none, none, false, true⟩ : Args).input.isNone) = true ∧
    (get_input_parameters ⟨none, none, false, true⟩ ["p1", "p2"]
        (Fs.mk [] (fun _ => []) (fun _ => none)).listing
        none none none).dirOf = some "p1" :=
  ⟨by decide,
   (exit_code_one_characterization ⟨none, none, false, true⟩ ["p1", "p2"]
     none none none (Fs.mk [] (fun _ => []) (fun _ => none))).2.2 "p1"
     ["p2"] (by decide) rfl rfl⟩
